import Mathlib

/-!
Shallow embedding of the trust and abuse-control subsystem of the kris
repository: the sliding-window rate limiter (RateLimitService), the review
moderation engine (ReviewService) and the trust-score aggregator
(AiAnalysisService.updateClientAiScore, ReviewService.updateClientStatistics).

Conventions of the embedding:
* Timestamps are naturals, in milliseconds (JavaScript Date.now()).
* JavaScript truthiness on optional bigint/number fields is modelled by
  `truthy`: `undefined` and `0` are falsy, every other number truthy.
* Every service method of the source returns a result object
  `{ success: true, data } | { success: false, error }` and mutates the
  database through Prisma; here each method is a pure function from the
  database state to a pair of an `Except SvcError result` and the new state,
  so that partial writes made before a failure stay visible.
* Ratings, scores and averages are rationals (the source uses JS numbers;
  all the arithmetic the claims mention is exact on the values involved).
* Fields the scoring and moderation paths never read (free-text metadata,
  encounter dates, tags) are elided from the records.
-/

/-- Errors returned by the services: `validation` mirrors `ValidationError`,
`businessRule` mirrors `BusinessRuleError`, `generic` mirrors a plain
`new Error(message)` (and errors thrown by the store). -/
inductive SvcError where
  | validation (field value : String)
  | businessRule (code msg : String)
  | generic (msg : String)
  deriving Repr, DecidableEq

/-- JavaScript truthiness of an optional numeric field: `undefined` and `0`
are falsy. -/
def truthy (o : Option Nat) : Bool :=
  o.getD 0 != 0

/-! ## Rate limiter (src/unnamed/part_006, RateLimitService) -/

/-- One row of the `rate_limits` table. -/
structure RateLimitRecord where
  id : Nat
  userId : Option Nat
  telegramId : Option Nat
  actionType : String
  count : Nat
  windowStart : Nat
  expiresAt : Nat
  deriving Repr, DecidableEq

/-- Argument of `checkRateLimit`; `maxAttempts`/`windowMinutes` are the
optional per-call overrides. -/
structure RateLimitRequest where
  userId : Option Nat
  telegramId : Option Nat
  actionType : String
  maxAttempts : Option Nat
  windowMinutes : Option Nat
  deriving Repr, DecidableEq

structure RateLimitConfig where
  maxAttempts : Nat
  windowMinutes : Nat
  deriving Repr, DecidableEq

/-- Value returned by a successful `checkRateLimit`. -/
structure RateLimitCheck where
  allowed : Bool
  remaining : Int
  resetTime : Nat
  totalAttempts : Nat
  deriving Repr, DecidableEq

/-- The `rate_limits` table plus the autoincrement id counter. -/
structure RLState where
  recs : List RateLimitRecord
  nextId : Nat
  deriving Repr, DecidableEq

/-- The static `DEFAULT_RATE_LIMITS` table (src/unnamed/part_008). -/
def DEFAULT_RATE_LIMITS (actionType : String) : Option RateLimitConfig :=
  if actionType = "create_review" then some ⟨5, 60⟩
  else if actionType = "upload_photo" then some ⟨10, 60⟩
  else if actionType = "search_client" then some ⟨50, 60⟩
  else if actionType = "create_client" then some ⟨10, 60⟩
  else if actionType = "send_message" then some ⟨100, 60⟩
  else if actionType = "api_request" then some ⟨1000, 60⟩
  else if actionType = "login_attempt" then some ⟨5, 15⟩
  else if actionType = "password_reset" then some ⟨3, 60⟩
  else none

/-- `getRateLimitConfig`: per-call override when both `maxAttempts` and
`windowMinutes` are truthy, else the static table, else `{100, 60}`. -/
def getRateLimitConfig (actionType : String) (request : Option RateLimitRequest) :
    RateLimitConfig :=
  match request with
  | some req =>
      if truthy req.maxAttempts && truthy req.windowMinutes then
        ⟨req.maxAttempts.getD 0, req.windowMinutes.getD 0⟩
      else (DEFAULT_RATE_LIMITS actionType).getD ⟨100, 60⟩
  | none => (DEFAULT_RATE_LIMITS actionType).getD ⟨100, 60⟩

/-- `getIdentifier` returns a non-null identifier iff the request carries a
truthy `userId` or a truthy `telegramId`. -/
def validReq (req : RateLimitRequest) : Bool :=
  truthy req.userId || truthy req.telegramId

/-- The Prisma `where` filter of the `findFirst` in `checkRateLimit`:
identifier equality (on `userId` when it is truthy, else on `telegramId`,
an absent `telegramId` imposing no constraint), same `actionType`, and
`windowStart >= threshold`. -/
def matchesWhere (req : RateLimitRequest) (threshold : Nat)
    (rec : RateLimitRecord) : Bool :=
  (if truthy req.userId then rec.userId == req.userId
   else
     match req.telegramId with
     | none => true
     | some t => rec.telegramId == some t) &&
  rec.actionType == req.actionType &&
  decide (threshold ≤ rec.windowStart)

/-- `orderBy windowStart desc` followed by `findFirst`: the row with the
greatest `windowStart` (the earliest such row on ties). -/
def pickLatest : List RateLimitRecord → Option RateLimitRecord
  | [] => none
  | r :: rs =>
      match pickLatest rs with
      | none => some r
      | some b => if b.windowStart > r.windowStart then some b else some r

/-- The `findFirst` query of `checkRateLimit`. -/
def findExisting (recs : List RateLimitRecord) (req : RateLimitRequest)
    (threshold : Nat) : Option RateLimitRecord :=
  pickLatest (recs.filter (matchesWhere req threshold))

/-- `RateLimitService.checkRateLimit`. The existing window (if any) gets its
count incremented and its `expiresAt` refreshed to `now + window`; otherwise
a fresh row with count 1 and `windowStart = now` is inserted. The answer is
computed from the post-increment count. -/
def checkRateLimit (st : RLState) (now : Nat) (request : RateLimitRequest) :
    Except SvcError RateLimitCheck × RLState :=
  let config := getRateLimitConfig request.actionType (some request)
  if !(validReq request) then
    (.error (.validation "identifier" "missing"), st)
  else
    let windowMs := config.windowMinutes * 60 * 1000
    let windowStart := now - windowMs
    match findExisting st.recs request windowStart with
    | some existingLimit =>
        let currentCount := existingLimit.count + 1
        let rateLimitRecord :=
          { existingLimit with
            count := currentCount, expiresAt := now + windowMs }
        let recs' := st.recs.map fun x =>
          if x.id = existingLimit.id then rateLimitRecord else x
        (.ok { allowed := decide (currentCount ≤ config.maxAttempts)
               remaining := max 0 ((config.maxAttempts : Int) - currentCount)
               resetTime := rateLimitRecord.expiresAt
               totalAttempts := currentCount },
         { st with recs := recs' })
    | none =>
        let rateLimitRecord : RateLimitRecord :=
          { id := st.nextId
            userId := request.userId
            telegramId := request.telegramId
            actionType := request.actionType
            count := 1
            windowStart := now
            expiresAt := now + windowMs }
        (.ok { allowed := decide (1 ≤ config.maxAttempts)
               remaining := max 0 ((config.maxAttempts : Int) - 1)
               resetTime := rateLimitRecord.expiresAt
               totalAttempts := 1 },
         { recs := st.recs ++ [rateLimitRecord], nextId := st.nextId + 1 })

/-- The for-loop body of `RateLimitService.checkMultipleActions`: evaluate in
order, push each result, break after the first disallowed result; a failed
check aborts with its error, discarding the collected results. -/
def checkMultipleActionsGo (now : Nat) (st : RLState) :
    List RateLimitRequest → Except SvcError (List RateLimitCheck) × RLState
  | [] => (.ok [], st)
  | req :: rest =>
      match checkRateLimit st now req with
      | (.error e, st') => (.error e, st')
      | (.ok c, st') =>
          if c.allowed then
            match checkMultipleActionsGo now st' rest with
            | (.ok cs, st'') => (.ok (c :: cs), st'')
            | (.error e, st'') => (.error e, st'')
          else (.ok [c], st')

/-- `RateLimitService.checkMultipleActions`. -/
def checkMultipleActions (st : RLState) (now : Nat)
    (requests : List RateLimitRequest) :
    Except SvcError (List RateLimitCheck) × RLState :=
  checkMultipleActionsGo now st requests

/-! ## Review moderation (src/src/services/review-service.ts, ReviewService) -/

inductive ReviewStatus where
  | ACTIVE | FLAGGED | HIDDEN | DELETED
  deriving Repr, DecidableEq

/-- One row of the `reviews` table (fields the moderation and statistics
paths read). -/
structure Review where
  id : Nat
  clientProfileId : Nat
  reviewerId : Nat
  rating : Nat
  reviewText : Option String
  flaggedCount : Nat
  status : ReviewStatus
  isVerified : Bool
  deriving Repr, DecidableEq

/-- The derived fields of a `client_profiles` row written by the
aggregators. -/
structure ClientProfile where
  id : Nat
  totalReviews : Nat
  averageRating : Option ℚ
  aiSafetyScore : Option ℚ
  deriving Repr, DecidableEq

structure User where
  id : Nat
  role : String
  deriving Repr, DecidableEq

/-- An `admin_actions` audit row; `detailsAction` and `detailsFlagCount`
model the `details` JSON payload. -/
structure AdminAction where
  adminId : Nat
  actionType : String
  targetType : String
  targetId : Nat
  detailsAction : String
  detailsFlagCount : Option Nat
  deriving Repr, DecidableEq

/-- One row of the `ai_analyses` table; `overallScore` is the
`resultData.overallScore` field, the only part of `resultData` the scoring
path reads. -/
structure AiAnalysisRec where
  id : Nat
  clientProfileId : Option Nat
  photoId : Option Nat
  analysisType : String
  overallScore : ℚ
  confidenceScore : Option ℚ
  createdAt : Nat
  deriving Repr, DecidableEq

/-- The database state shared by ReviewService and AiAnalysisService. -/
structure DB where
  reviews : List Review
  clients : List ClientProfile
  users : List User
  adminActions : List AdminAction
  aiAnalyses : List AiAnalysisRec
  nextReviewId : Nat
  nextAnalysisId : Nat
  deriving Repr, DecidableEq

/-- `AUTO_HIDE_FLAG_THRESHOLD` (src/unnamed/part_008). -/
def AUTO_HIDE_FLAG_THRESHOLD : Nat := 3

/-- `prisma.review.findUnique({ where: { id } })`. -/
def findReview (db : DB) (id : Nat) : Option Review :=
  db.reviews.find? fun r => decide (r.id = id)

/-- `prisma.clientProfile.findUnique`-style lookup, used to phrase
post-state properties. -/
def findClient (db : DB) (id : Nat) : Option ClientProfile :=
  db.clients.find? fun c => decide (c.id = id)

/-- The set the statistics aggregate ranges over: reviews of the client with
status ACTIVE. -/
def activeReviews (db : DB) (clientProfileId : Nat) : List Review :=
  db.reviews.filter fun r =>
    decide (r.clientProfileId = clientProfileId ∧ r.status = ReviewStatus.ACTIVE)

/-- `ReviewService.updateClientStatistics`: recompute `totalReviews` and
`averageRating` from the ACTIVE set; `stats._avg.rating` is null on an empty
set, and the JS `|| null` also maps an average of 0 to null. The
`clientProfile.update` throws when the client row is absent. -/
def updateClientStatistics (db : DB) (clientProfileId : Nat) :
    Except SvcError Unit × DB :=
  let active := activeReviews db clientProfileId
  let cnt := active.length
  let avgRaw : Option ℚ :=
    if cnt = 0 then none
    else some ((active.map fun r => (r.rating : ℚ)).sum / cnt)
  let avg : Option ℚ :=
    match avgRaw with
    | none => none
    | some a => if a = 0 then none else some a
  if (findClient db clientProfileId).isSome then
    (.ok (),
     { db with clients := db.clients.map fun (c : ClientProfile) =>
        if c.id = clientProfileId then
          { c with totalReviews := cnt, averageRating := avg }
        else c })
  else (.error (.generic "Record to update not found."), db)

/-- Argument of `createReview` (fields the core paths read; the remaining
optional text fields of `CreateReviewSchema` are elided). -/
structure CreateReviewRequest where
  clientProfileId : Nat
  rating : Nat
  reviewText : Option String
  deriving Repr, DecidableEq

/-- The `CreateReviewSchema` checks on the modelled fields: positive client
id and integer rating between 1 and 5. -/
def createReviewValid (req : CreateReviewRequest) : Bool :=
  decide (1 ≤ req.clientProfileId) &&
  decide (1 ≤ req.rating) && decide (req.rating ≤ 5)

/-- The review row `createReview` inserts. -/
def newReviewRec (db : DB) (request : CreateReviewRequest)
    (reviewerId : Nat) : Review :=
  { id := db.nextReviewId
    clientProfileId := request.clientProfileId
    reviewerId := reviewerId
    rating := request.rating
    reviewText := request.reviewText
    flaggedCount := 0
    status := .ACTIVE
    isVerified := false }

/-- The duplicate check of `createReview`: any existing non-DELETED review by
the same (clientProfileId, reviewerId) pair. -/
def findDuplicate (db : DB) (clientProfileId reviewerId : Nat) : Option Review :=
  db.reviews.find? fun r =>
    decide (r.clientProfileId = clientProfileId ∧ r.reviewerId = reviewerId ∧
            r.status ≠ ReviewStatus.DELETED)

/-- `ReviewService.createReview`: validate, reject duplicates with a
`DUPLICATE_REVIEW` business-rule error, insert with status ACTIVE and then
recompute the client statistics (a failure there still leaves the review
inserted, as in the source where the thrown error is caught after the
insert). -/
def createReview (db : DB) (request : CreateReviewRequest) (reviewerId : Nat) :
    Except SvcError Review × DB :=
  if !(createReviewValid request) then
    (.error (.generic "validation failed"), db)
  else
    match findDuplicate db request.clientProfileId reviewerId with
    | some _ =>
        (.error (.businessRule "DUPLICATE_REVIEW"
           "You have already reviewed this client"), db)
    | none =>
        let review : Review := newReviewRec db request reviewerId
        let db1 := { db with reviews := db.reviews ++ [review],
                             nextReviewId := db.nextReviewId + 1 }
        match updateClientStatistics db1 request.clientProfileId with
        | (.ok _, db2) => (.ok review, db2)
        | (.error e, db2) => (.error e, db2)

/-- `ReviewService.canUserModifyReview`: the author, or a user whose role is
ADMIN or MANAGER. -/
def canUserModifyReview (db : DB) (userId : Nat) (review : Review) : Bool :=
  if review.reviewerId = userId then true
  else
    match db.users.find? fun u => decide (u.id = userId) with
    | some u => u.role == "ADMIN" || u.role == "MANAGER"
    | none => false

/-- Argument of `updateReview`; `UpdateReviewSchema` has no `status` field,
so the update can never touch `status`. Elided optional text fields do not
affect status or statistics. -/
structure UpdateReviewRequest where
  rating : Option Nat
  reviewText : Option String
  isVerified : Option Bool
  deriving Repr, DecidableEq

def updateReviewValid (req : UpdateReviewRequest) : Bool :=
  match req.rating with
  | none => true
  | some r => decide (1 ≤ r) && decide (r ≤ 5)

/-- The `{ ...validData }` spread of `updateReview`: fields present in the
request overwrite the stored ones; `status` is not among them. -/
def applyUpdate (req : UpdateReviewRequest) (r : Review) : Review :=
  { r with
    rating := req.rating.getD r.rating
    reviewText :=
      match req.reviewText with
      | some t => some t
      | none => r.reviewText
    isVerified := req.isVerified.getD r.isVerified }

/-- `ReviewService.updateReview`: validate, look the review up (absent gives
the error "Review not found"), check authorization (failure gives the error
"Not authorized to update this review"), apply the given fields, and
recompute statistics when a rating was supplied. -/
def updateReview (db : DB) (id : Nat) (request : UpdateReviewRequest)
    (updatedBy : Nat) : Except SvcError Review × DB :=
  if !(updateReviewValid request) then
    (.error (.generic "validation failed"), db)
  else
    match findReview db id with
    | none => (.error (.generic "Review not found"), db)
    | some existingReview =>
        if !(canUserModifyReview db updatedBy existingReview) then
          (.error (.generic "Not authorized to update this review"), db)
        else
          let updatedReview := applyUpdate request existingReview
          let db1 := { db with reviews := db.reviews.map fun (r : Review) =>
            if r.id = id then updatedReview else r }
          if request.rating.isSome then
            match updateClientStatistics db1 existingReview.clientProfileId with
            | (.ok _, db2) => (.ok updatedReview, db2)
            | (.error e, db2) => (.error e, db2)
          else (.ok updatedReview, db1)

/-- `ReviewService.flagReview`: unconditionally increment `flaggedCount` and
set status FLAGGED (the Prisma update throws when the id is absent), write
the audit row, then set status HIDDEN when the post-increment count reaches
`AUTO_HIDE_FLAG_THRESHOLD`. The returned record is the one from the first
update (status FLAGGED), as in the source. -/
def flagReview (db : DB) (id : Nat) (flaggedBy : Nat) :
    Except SvcError Review × DB :=
  match findReview db id with
  | none => (.error (.generic "Record to update not found."), db)
  | some review0 =>
      let review :=
        { review0 with flaggedCount := review0.flaggedCount + 1,
                       status := .FLAGGED }
      let db1 := { db with reviews := db.reviews.map fun (r : Review) =>
        if r.id = id then review else r }
      let db2 := { db1 with adminActions := db1.adminActions ++
        [{ adminId := flaggedBy
           actionType := "REVIEW_MODERATE"
           targetType := "REVIEW"
           targetId := id
           detailsAction := "flag"
           detailsFlagCount := some (review.flaggedCount + 1) }] }
      if AUTO_HIDE_FLAG_THRESHOLD ≤ review.flaggedCount then
        let db3 := { db2 with reviews := db2.reviews.map fun (r : Review) =>
          if r.id = id then { r with status := .HIDDEN } else r }
        (.ok review, db3)
      else (.ok review, db2)

/-- `ReviewService.deleteReview`: look the review up (absent gives the error
"Review not found"), set status DELETED, recompute the client statistics and
write the audit row. No authorization check is performed. -/
def deleteReview (db : DB) (id : Nat) (deletedBy : Nat) :
    Except SvcError Unit × DB :=
  match findReview db id with
  | none => (.error (.generic "Review not found"), db)
  | some review =>
      let db1 := { db with reviews := db.reviews.map fun (r : Review) =>
        if r.id = id then { r with status := .DELETED } else r }
      match updateClientStatistics db1 review.clientProfileId with
      | (.error e, db2) => (.error e, db2)
      | (.ok _, db2) =>
          let db3 := { db2 with adminActions := db2.adminActions ++
            [{ adminId := deletedBy
               actionType := "REVIEW_MODERATE"
               targetType := "REVIEW"
               targetId := id
               detailsAction := "delete"
               detailsFlagCount := none }] }
          (.ok (), db3)

/-! ## AI analysis (src/src/services/ai-analysis-service.ts, AiAnalysisService) -/

/-- Argument of `createAnalysis`; `overallScore` stands for
`resultData.overallScore` and `resultShapeOk` for the shape checks on the
parts of `resultData` the scoring path never reads (faces, riskFactors,
sentiment fields). -/
structure CreateAnalysisRequest where
  clientProfileId : Option Nat
  photoId : Option Nat
  analysisType : String
  overallScore : ℚ
  resultShapeOk : Bool
  confidenceScore : Option ℚ
  deriving Repr, DecidableEq

/-- `isValidConfidenceScore`: between 0 and 1. -/
def isValidConfidenceScore (score : ℚ) : Bool :=
  decide (0 ≤ score) && decide (score ≤ 1)

/-- `validateResultData`: a SAFETY_ASSESSMENT needs `overallScore` between 0
and 10 (plus shape checks); FACE_DETECTION and TEXT_SENTIMENT only shape
checks; other types pass. -/
def validateResultData (req : CreateAnalysisRequest) : Bool :=
  if req.analysisType = "SAFETY_ASSESSMENT" then
    decide (0 ≤ req.overallScore) && decide (req.overallScore ≤ 10) &&
      req.resultShapeOk
  else if req.analysisType = "FACE_DETECTION" then req.resultShapeOk
  else if req.analysisType = "TEXT_SENTIMENT" then req.resultShapeOk
  else true

/-- The rows `updateClientAiScore` queries: safety assessments of the
client. -/
def safetyAssessments (db : DB) (clientProfileId : Nat) : List AiAnalysisRec :=
  db.aiAnalyses.filter fun a =>
    decide (a.clientProfileId = some clientProfileId ∧
            a.analysisType = "SAFETY_ASSESSMENT")

/-- Insertion step of the `orderBy createdAt desc` sort (stable: on equal
timestamps the earlier row stays first). -/
def insertByCreatedAtDesc (a : AiAnalysisRec) :
    List AiAnalysisRec → List AiAnalysisRec
  | [] => [a]
  | b :: rest =>
      if b.createdAt < a.createdAt then a :: b :: rest
      else b :: insertByCreatedAtDesc a rest

/-- `orderBy: { createdAt: "desc" }`. -/
def sortByCreatedAtDesc (l : List AiAnalysisRec) : List AiAnalysisRec :=
  l.foldr insertByCreatedAtDesc []

/-- `AiAnalysisService.updateClientAiScore`: average `overallScore` over the
5 most recent safety assessments of the client and store it; with no
assessments nothing is written. The `clientProfile.update` throws when the
client row is absent. -/
def updateClientAiScore (db : DB) (clientProfileId : Nat) :
    Except SvcError Unit × DB :=
  let latestAssessments :=
    (sortByCreatedAtDesc (safetyAssessments db clientProfileId)).take 5
  if latestAssessments.length > 0 then
    let scores := latestAssessments.map fun a => a.overallScore
    let averageScore := scores.sum / (scores.length : ℚ)
    if (findClient db clientProfileId).isSome then
      (.ok (),
       { db with clients := db.clients.map fun (c : ClientProfile) =>
          if c.id = clientProfileId then
            { c with aiSafetyScore := some averageScore }
          else c })
    else (.error (.generic "Record to update not found."), db)
  else (.ok (), db)

/-- The analysis row `createAnalysis` inserts, with `createdAt = now`. -/
def newAnalysisRec (db : DB) (now : Nat)
    (request : CreateAnalysisRequest) : AiAnalysisRec :=
  { id := db.nextAnalysisId
    clientProfileId := request.clientProfileId
    photoId := request.photoId
    analysisType := request.analysisType
    overallScore := request.overallScore
    confidenceScore := request.confidenceScore
    createdAt := now }

/-- The body of `createAnalysis` after the confidence check: require a truthy
target, validate the result shape, insert the row with `createdAt = now`,
then refresh the client score when the analysis is a SAFETY_ASSESSMENT with
a truthy client id (a failure there is caught after the insert). -/
def createAnalysisChecked (db : DB) (now : Nat) (request : CreateAnalysisRequest) :
    Except SvcError AiAnalysisRec × DB :=
  if !(truthy request.clientProfileId || truthy request.photoId) then
    (.error (.validation "target"
       "Either clientProfileId or photoId must be specified"), db)
  else if !(validateResultData request) then
    (.error (.validation "resultData" "invalid"), db)
  else
    let analysis : AiAnalysisRec := newAnalysisRec db now request
    let db1 := { db with aiAnalyses := db.aiAnalyses ++ [analysis],
                         nextAnalysisId := db.nextAnalysisId + 1 }
    if request.analysisType = "SAFETY_ASSESSMENT" &&
        truthy request.clientProfileId then
      match updateClientAiScore db1 (request.clientProfileId.getD 0) with
      | (.ok _, db2) => (.ok analysis, db2)
      | (.error e, db2) => (.error e, db2)
    else (.ok analysis, db1)

/-- `AiAnalysisService.createAnalysis`: the confidence-score check, then the
checked body. -/
def createAnalysis (db : DB) (now : Nat) (request : CreateAnalysisRequest) :
    Except SvcError AiAnalysisRec × DB :=
  match request.confidenceScore with
  | some c =>
      if !(isValidConfidenceScore c) then
        (.error (.validation "confidenceScore" "out of range"), db)
      else createAnalysisChecked db now request
  | none => createAnalysisChecked db now request

/-! ## Auxiliary definitions used by the statements -/

def emptyRL : RLState := ⟨[], 0⟩

/-- The window length, in milliseconds, the limiter uses for a request. -/
def windowMsOf (req : RateLimitRequest) : Nat :=
  (getRateLimitConfig req.actionType (some req)).windowMinutes * 60 * 1000

def maxAttemptsOf (req : RateLimitRequest) : Nat :=
  (getRateLimitConfig req.actionType (some req)).maxAttempts

/-- The window row `checkRateLimit` writes for a request. -/
def mkWindowRec (req : RateLimitRequest) (now count nextId : Nat) :
    RateLimitRecord :=
  { id := nextId
    userId := req.userId
    telegramId := req.telegramId
    actionType := req.actionType
    count := count
    windowStart := now
    expiresAt := now + windowMsOf req }

/-- State after `n` consecutive `checkRateLimit` calls for the same request
at the same instant, starting from the empty store. -/
def repeatCheck (now : Nat) (req : RateLimitRequest) : Nat → RLState
  | 0 => emptyRL
  | n + 1 => (checkRateLimit (repeatCheck now req n) now req).2

/-- Reference sequential evaluation of a request list with no early stop on
denial (a failed check still stops and discards, as in the source loop). -/
def runSeq (now : Nat) (st : RLState) :
    List RateLimitRequest → List RateLimitCheck × RLState
  | [] => ([], st)
  | req :: rest =>
      match checkRateLimit st now req with
      | (.ok c, st') =>
          let p := runSeq now st' rest
          (c :: p.1, p.2)
      | (.error _, st') => ([], st')

/-- Mean of a list of rationals. -/
def listMeanQ (l : List ℚ) : ℚ := l.sum / (l.length : ℚ)

/-- The client-aggregate correctness property of the specification:
`totalReviews` counts the ACTIVE reviews and `averageRating` is their mean,
null on an empty set. -/
def statsCorrect (db : DB) (clientProfileId : Nat) : Prop :=
  ∀ cp, findClient db clientProfileId = some cp →
    cp.totalReviews = (activeReviews db clientProfileId).length ∧
    cp.averageRating =
      (if (activeReviews db clientProfileId) = [] then none
       else some (listMeanQ
         ((activeReviews db clientProfileId).map fun r => (r.rating : ℚ))))

/-- The scores feeding the safety aggregate: `overallScore` of the 5 most
recent safety assessments of the client, by descending `createdAt`. -/
def fiveMostRecentSafetyScores (db : DB) (clientProfileId : Nat) : List ℚ :=
  ((sortByCreatedAtDesc (safetyAssessments db clientProfileId)).take 5).map
    fun a => a.overallScore

/-! ## Concrete fixtures for witnesses and counterexamples -/

/-- A request with a per-call override of 5 attempts per 1-minute window. -/
def rlReqA : RateLimitRequest := ⟨some 1, none, "create_review", some 5, some 1⟩

/-- A request with a per-call override of 1 attempt per 1-minute window. -/
def rlReqB : RateLimitRequest := ⟨some 7, none, "login_attempt", some 1, some 1⟩

def exClient : ClientProfile := ⟨2, 1, some 5, none⟩

def exUserPlain : User := ⟨20, "USER"⟩

def exReviewActive : Review := ⟨1, 2, 10, 5, none, 0, .ACTIVE, false⟩

def exReviewDeleted : Review := ⟨1, 2, 10, 5, none, 0, .DELETED, false⟩

def exDB : DB := ⟨[exReviewActive], [exClient], [exUserPlain], [], [], 5, 1⟩

def exDBdel : DB := ⟨[exReviewDeleted], [exClient], [exUserPlain], [], [], 5, 1⟩

/-- `exceptOk` tests the success constructor, mirroring `result.success`. -/
def exceptOk {ε α : Type} : Except ε α → Bool
  | .ok _ => true
  | .error _ => false

/-- The database `updateClientStatistics` writes when the client row
exists. -/
def statsUpdatedDB (db : DB) (c : Nat) : DB :=
  { db with clients := db.clients.map fun (cl : ClientProfile) =>
      if cl.id = c then
        { cl with
          totalReviews := (activeReviews db c).length
          averageRating :=
            (match (if (activeReviews db c).length = 0 then none
                    else some (((activeReviews db c).map
                        fun r => (r.rating : ℚ)).sum /
                      ((activeReviews db c).length : ℚ))) with
             | none => none
             | some a => if a = 0 then none else some a) }
      else cl }

/-- The database `updateClientAiScore` writes when assessments and the
client row exist. -/
def scoreUpdatedDB (db : DB) (c : Nat) : DB :=
  { db with clients := db.clients.map fun (cl : ClientProfile) =>
      if cl.id = c then
        { cl with
          aiSafetyScore := some (listMeanQ (fiveMostRecentSafetyScores db c)) }
      else cl }

/-! ## Helper lemmas -/

/-- Updating the row a `find?` by key located keeps it the `find?` result. -/
theorem find?_map_update {α : Type} (key : α → Nat) (i : Nat) (f : α → α)
    (l : List α) (r : α) (hfr : key (f r) = i)
    (h : l.find? (fun x => decide (key x = i)) = some r) :
    (l.map fun x => if key x = i then f x else x).find?
      (fun x => decide (key x = i)) = some (f r) := by
  induction l with
  | nil => simp at h
  | cons a l ih =>
      by_cases ha : key a = i
      · rw [List.find?_cons_of_pos _ (by simp [ha])] at h
        obtain rfl : a = r := by simpa using h
        simp [List.map_cons, if_pos ha, List.find?_cons_of_pos, hfr]
      · rw [List.find?_cons_of_neg _ (by simp [ha])] at h
        rw [List.map_cons, if_neg ha, List.find?_cons_of_neg _ (by simp [ha])]
        exact ih h

/-- A found element satisfies the key predicate. -/
theorem find?_key_eq {α : Type} (key : α → Nat) (i : Nat) (l : List α) (r : α)
    (h : l.find? (fun x => decide (key x = i)) = some r) : key r = i := by
  have := List.find?_some h
  simpa using this

theorem pickLatest_mem (l : List RateLimitRecord) (r : RateLimitRecord)
    (h : pickLatest l = some r) : r ∈ l := by
  induction l with
  | nil => simp [pickLatest] at h
  | cons a l ih =>
      rw [pickLatest] at h
      cases hp : pickLatest l with
      | none =>
          simp only [hp] at h
          obtain rfl : a = r := by simpa using h
          exact List.mem_cons_self _ _
      | some b =>
          simp only [hp] at h
          by_cases hb : b.windowStart > a.windowStart
          · rw [if_pos hb] at h
            obtain rfl : b = r := by simpa using h
            exact List.mem_cons_of_mem _ (ih hp)
          · rw [if_neg hb] at h
            obtain rfl : a = r := by simpa using h
            exact List.mem_cons_self _ _

theorem findExisting_mem (recs : List RateLimitRecord)
    (req : RateLimitRequest) (t : Nat) (r : RateLimitRecord)
    (h : findExisting recs req t = some r) : r ∈ recs :=
  List.mem_of_mem_filter (pickLatest_mem _ _ h)

/-- Evaluation of `checkRateLimit` on a request with a usable identifier. -/
theorem checkRateLimit_valid_eq (st : RLState) (now : Nat)
    (req : RateLimitRequest) (h : validReq req = true) :
    checkRateLimit st now req =
      match findExisting st.recs req (now - windowMsOf req) with
      | some r =>
          (.ok { allowed := decide (r.count + 1 ≤ maxAttemptsOf req)
                 remaining := max 0 ((maxAttemptsOf req : Int) - (r.count + 1))
                 resetTime := now + windowMsOf req
                 totalAttempts := r.count + 1 },
           ⟨st.recs.map fun x =>
              if x.id = r.id then
                { r with count := r.count + 1,
                         expiresAt := now + windowMsOf req }
              else x,
            st.nextId⟩)
      | none =>
          (.ok { allowed := decide (1 ≤ maxAttemptsOf req)
                 remaining := max 0 ((maxAttemptsOf req : Int) - 1)
                 resetTime := now + windowMsOf req
                 totalAttempts := 1 },
           ⟨st.recs ++ [mkWindowRec req now 1 st.nextId], st.nextId + 1⟩) := by
  cases hf : findExisting st.recs req (now - windowMsOf req) with
  | some r =>
      simp only [windowMsOf] at hf
      simp [checkRateLimit, h, hf, windowMsOf, maxAttemptsOf]
  | none =>
      simp only [windowMsOf] at hf
      simp [checkRateLimit, h, hf, windowMsOf, maxAttemptsOf, mkWindowRec]

theorem checkRateLimit_ok (st : RLState) (now : Nat) (req : RateLimitRequest)
    (h : validReq req = true) :
    ∃ c st', checkRateLimit st now req = (.ok c, st') := by
  rw [checkRateLimit_valid_eq st now req h]
  cases findExisting st.recs req (now - windowMsOf req) <;> exact ⟨_, _, rfl⟩

/-- The window row written for a request matches the query filter of any
later check at the same instant. -/
theorem matchesWhere_mkWindowRec (req : RateLimitRequest)
    (h : validReq req = true) (t now cnt i : Nat) (ht : t ≤ now) :
    matchesWhere req t (mkWindowRec req now cnt i) = true := by
  rw [matchesWhere, mkWindowRec]
  by_cases hu : truthy req.userId
  · simp [hu, ht]
  · have htel : truthy req.telegramId = true := by
      rcases Bool.or_eq_true_iff.1 (by simpa [validReq] using h) with h1 | h1
      · exact absurd h1 hu
      · exact h1
    cases htg : req.telegramId with
    | none => rw [htg] at htel; simp [truthy] at htel
    | some tval => simp [hu, htg, ht]

theorem findExisting_singleton (req : RateLimitRequest) (t : Nat)
    (rec : RateLimitRecord) (hm : matchesWhere req t rec = true) :
    findExisting [rec] req t = some rec := by
  simp [findExisting, List.filter, hm, pickLatest]

/-- After `k + 1` identical checks from the empty store, exactly one window
row exists, with count `k + 1` and a window anchored at the first call. -/
theorem repeatCheck_state (now : Nat) (req : RateLimitRequest)
    (h : validReq req = true) :
    ∀ k, repeatCheck now req (k + 1) = ⟨[mkWindowRec req now (k + 1) 0], 1⟩ := by
  intro k
  induction k with
  | zero =>
      simp only [repeatCheck, emptyRL]
      rw [checkRateLimit_valid_eq _ _ _ h]
      rfl
  | succ n ih =>
      rw [repeatCheck, ih, checkRateLimit_valid_eq _ _ _ h]
      have hm : matchesWhere req (now - windowMsOf req)
          (mkWindowRec req now (n + 1) 0) = true :=
        matchesWhere_mkWindowRec req h _ now _ _ (Nat.sub_le _ _)
      rw [show (⟨[mkWindowRec req now (n + 1) 0], 1⟩ : RLState).recs =
            [mkWindowRec req now (n + 1) 0] from rfl,
          findExisting_singleton req _ _ hm]
      simp [mkWindowRec]

/-- Result of the `(k + 1)`-th identical check from the empty store. -/
theorem repeatCheck_result (now : Nat) (req : RateLimitRequest)
    (h : validReq req = true) (k : Nat) :
    (checkRateLimit (repeatCheck now req k) now req).1 =
      .ok { allowed := decide (k + 1 ≤ maxAttemptsOf req)
            remaining := max 0 ((maxAttemptsOf req : Int) - (k + 1))
            resetTime := now + windowMsOf req
            totalAttempts := k + 1 } := by
  cases k with
  | zero =>
      simp only [repeatCheck, emptyRL]
      rw [checkRateLimit_valid_eq _ _ _ h]
      rfl
  | succ n =>
      rw [repeatCheck_state now req h n, checkRateLimit_valid_eq _ _ _ h]
      have hm : matchesWhere req (now - windowMsOf req)
          (mkWindowRec req now (n + 1) 0) = true :=
        matchesWhere_mkWindowRec req h _ now _ _ (Nat.sub_le _ _)
      rw [show (⟨[mkWindowRec req now (n + 1) 0], 1⟩ : RLState).recs =
            [mkWindowRec req now (n + 1) 0] from rfl,
          findExisting_singleton req _ _ hm]
      simp [mkWindowRec]

/-! ## Claim C1 -/

/-- C1: for every rate-limit request carrying a usable userId or telegramId,
`checkRateLimit` increments the window counter before answering (creating a
count-1 window anchored at now when no window of the last windowLength
exists), and answers with allowed = (post-increment count <= maxAttempts),
remaining = max(0, maxAttempts - count), totalAttempts = count;
consequently the (k+1)-th call within one window has totalAttempts = k+1
and is denied iff k+1 > maxAttempts. -/
theorem checkRateLimit_counts_and_answers :
    (∀ (st : RLState) (now : Nat) (req : RateLimitRequest),
      validReq req = true →
      ∃ ck st', checkRateLimit st now req = (.ok ck, st') ∧
        (findExisting st.recs req (now - windowMsOf req) = none →
          ck.totalAttempts = 1 ∧
          st'.recs = st.recs ++ [mkWindowRec req now 1 st.nextId]) ∧
        (∀ r, findExisting st.recs req (now - windowMsOf req) = some r →
          ck.totalAttempts = r.count + 1 ∧
          st'.recs = st.recs.map fun x =>
            if x.id = r.id then
              { r with count := r.count + 1,
                       expiresAt := now + windowMsOf req }
            else x) ∧
        ck.allowed = decide (ck.totalAttempts ≤ maxAttemptsOf req) ∧
        ck.remaining = max 0 ((maxAttemptsOf req : Int) - ck.totalAttempts)) ∧
    (∀ (now : Nat) (req : RateLimitRequest) (k : Nat),
      validReq req = true →
      (checkRateLimit (repeatCheck now req k) now req).1 =
        .ok { allowed := decide (k + 1 ≤ maxAttemptsOf req)
              remaining := max 0 ((maxAttemptsOf req : Int) - (k + 1))
              resetTime := now + windowMsOf req
              totalAttempts := k + 1 }) := by
  constructor
  · intro st now req h
    rw [checkRateLimit_valid_eq st now req h]
    cases hf : findExisting st.recs req (now - windowMsOf req) with
    | some r =>
        refine ⟨_, _, rfl, ?_, ?_, ?_, ?_⟩
        · intro hc; exact Option.noConfusion hc
        · intro r' hr'
          cases Option.some.inj hr'
          exact ⟨rfl, rfl⟩
        · rfl
        · push_cast
          rfl
    | none =>
        refine ⟨_, _, rfl, ?_, ?_, ?_, ?_⟩
        · intro _; exact ⟨rfl, rfl⟩
        · intro r' hr'; exact Option.noConfusion hr'
        · rfl
        · rfl
  · intro now req k h
    exact repeatCheck_result now req h k

/-- Witness for C1 at concrete inputs: override config 5/min, empty store;
the first call counts 1; the sixth call in the window is denied with
remaining 0 and totalAttempts 6. -/
theorem checkRateLimit_counts_and_answers_witness :
    (∃ ck st', checkRateLimit emptyRL 0 rlReqA = (.ok ck, st') ∧
      ck.totalAttempts = 1) ∧
    (checkRateLimit (repeatCheck 0 rlReqA 5) 0 rlReqA).1 =
      .ok { allowed := false, remaining := 0, resetTime := 60000,
            totalAttempts := 6 } := by
  constructor
  · obtain ⟨ck, st', heq, hnone, _, _, _⟩ :=
      checkRateLimit_counts_and_answers.1 emptyRL 0 rlReqA (by decide)
    exact ⟨ck, st', heq, (hnone (by decide)).1⟩
  · exact (checkRateLimit_counts_and_answers.2 0 rlReqA 5 (by decide)).trans
      (congrArg Except.ok (by decide))

/-! ## Claim C4 (corrected) -/

/-- Counterexample to C4 as stated: after a second increment inside the same
window, the stored row has windowStart 0 but expiresAt 90000, which differs
from windowStart + windowLength = 60000; the update branch of
`checkRateLimit` refreshes `expiresAt` to now + windowLength. -/
theorem rate_window_expiresAt_cx :
    (checkRateLimit (checkRateLimit emptyRL 0 rlReqA).2 30000 rlReqA).2.recs =
      [{ id := 0, userId := some 1, telegramId := none,
         actionType := "create_review", count := 2, windowStart := 0,
         expiresAt := 90000 }] ∧
    ¬ (90000 = 0 + windowMsOf rlReqA) := by
  constructor
  · decide
  · decide

/-- C4 amended: the stored `expiresAt` equals the time of the most recent
increment plus windowLength (so later increments do move it), and every
answer, including denials, carries resetTime equal to the written row's
stored expiresAt. -/
theorem checkRateLimit_resetTime_stored :
    ∀ (st : RLState) (now : Nat) (req : RateLimitRequest),
      validReq req = true →
      ∃ ck st', checkRateLimit st now req = (.ok ck, st') ∧
        ck.resetTime = now + windowMsOf req ∧
        ∃ rec ∈ st'.recs, rec.expiresAt = ck.resetTime ∧
          rec.count = ck.totalAttempts := by
  intro st now req h
  rw [checkRateLimit_valid_eq st now req h]
  cases hf : findExisting st.recs req (now - windowMsOf req) with
  | some r =>
      refine ⟨_, _, rfl, rfl, ?_⟩
      refine ⟨{ r with count := r.count + 1,
                       expiresAt := now + windowMsOf req }, ?_, rfl, rfl⟩
      have hr : r ∈ st.recs := findExisting_mem _ _ _ _ hf
      exact List.mem_map.2 ⟨r, hr, by simp⟩
  | none =>
      refine ⟨_, _, rfl, rfl, ?_⟩
      exact ⟨mkWindowRec req now 1 st.nextId, by simp, rfl, rfl⟩

/-- Witness for the amended C4: a denied second call with override 1/min
still answers resetTime 60000, the stored expiresAt of the updated row. -/
theorem checkRateLimit_resetTime_stored_witness :
    ∃ ck st',
      checkRateLimit (checkRateLimit emptyRL 0 rlReqB).2 0 rlReqB =
        (.ok ck, st') ∧
      ck.resetTime = 0 + windowMsOf rlReqB ∧
      ∃ rec ∈ st'.recs, rec.expiresAt = ck.resetTime ∧
        rec.count = ck.totalAttempts :=
  checkRateLimit_resetTime_stored (checkRateLimit emptyRL 0 rlReqB).2 0 rlReqB
    (by decide)

/-! ## Claim C9 -/

theorem mem_dropLast_cons {α : Type} {x a : α} {l : List α}
    (hx : x ∈ (a :: l).dropLast) : x = a ∨ x ∈ l.dropLast := by
  cases l with
  | nil => simp at hx
  | cons b m =>
      rw [List.dropLast_cons₂] at hx
      exact List.mem_cons.1 hx

theorem getLast?_cons_ne_nil {α : Type} (a : α) {l : List α} (h : l ≠ []) :
    (a :: l).getLast? = l.getLast? := by
  cases l with
  | nil => exact absurd rfl h
  | cons b m => exact List.getLast?_cons_cons

/-- The loop of `checkMultipleActions` evaluates an in-order prefix of the
requests: the evaluated prefix has some length k, everything before the last
result was allowed, the last result was a denial whenever the loop stopped
early, and the final store state is that of evaluating only the prefix, so
requests after the first denial consume no quota. -/
theorem checkMultipleActionsGo_spec (now : Nat) :
    ∀ (reqs : List RateLimitRequest) (st : RLState),
      (∀ r ∈ reqs, validReq r = true) →
      ∃ k, k ≤ reqs.length ∧
        checkMultipleActionsGo now st reqs =
          (.ok (runSeq now st (reqs.take k)).1,
           (runSeq now st (reqs.take k)).2) ∧
        (runSeq now st (reqs.take k)).1.length = k ∧
        (∀ c ∈ (runSeq now st (reqs.take k)).1.dropLast, c.allowed = true) ∧
        (k < reqs.length →
          ∃ cl, (runSeq now st (reqs.take k)).1.getLast? = some cl ∧
            cl.allowed = false) := by
  intro reqs
  induction reqs with
  | nil =>
      intro st _
      exact ⟨0, Nat.le_refl _, rfl, rfl, by simp [runSeq], by simp⟩
  | cons r rs ih =>
      intro st hv
      have hr : validReq r = true := hv r (List.mem_cons_self _ _)
      obtain ⟨c, st1, hc⟩ := checkRateLimit_ok st now r hr
      by_cases hall : c.allowed = true
      · obtain ⟨k, hk, hgo, hlen, hdrop, hlast⟩ :=
          ih st1 fun x hx => hv x (List.mem_cons_of_mem _ hx)
        have hrun : runSeq now st ((r :: rs).take (k + 1)) =
            (c :: (runSeq now st1 (rs.take k)).1,
             (runSeq now st1 (rs.take k)).2) := by
          rw [List.take_succ_cons, runSeq, hc]
        refine ⟨k + 1, Nat.succ_le_succ hk, ?_, ?_, ?_, ?_⟩
        · rw [hrun, checkMultipleActionsGo, hc]
          simp only [hall, if_true, hgo]
        · rw [hrun]
          simpa using hlen
        · rw [hrun]
          intro x hx
          rcases mem_dropLast_cons hx with h1 | h1
          · rw [h1]; exact hall
          · exact hdrop x h1
        · intro hklen
          obtain ⟨cl, hcl, hclf⟩ := hlast (Nat.lt_of_succ_lt_succ hklen)
          refine ⟨cl, ?_, hclf⟩
          rw [hrun]
          have hne : (runSeq now st1 (rs.take k)).1 ≠ [] := by
            intro hnil
            rw [hnil] at hcl
            simp at hcl
          rw [getLast?_cons_ne_nil c hne]
          exact hcl
      · have hallf : c.allowed = false := by
          cases hca : c.allowed
          · rfl
          · exact absurd hca hall
        have hrun : runSeq now st ((r :: rs).take 1) = ([c], st1) := by
          rw [show (1 : Nat) = 0 + 1 from rfl, List.take_succ_cons,
              List.take_zero, runSeq, hc]
          rfl
        refine ⟨1, Nat.succ_le_succ (Nat.zero_le _), ?_, ?_, ?_, ?_⟩
        · rw [hrun, checkMultipleActionsGo, hc]
          simp only [hallf]
          rfl
        · rw [hrun]
          rfl
        · rw [hrun]
          intro x hx
          simp at hx
        · intro _
          refine ⟨c, ?_, hallf⟩
          rw [hrun]
          rfl

/-- C9: `checkMultipleActions` evaluates requests strictly in list order and
stops at the first denial, returning exactly the per-request results of the
evaluated prefix (all allowed except possibly the last, which is denied
whenever the list was cut short); the store state afterwards is that of
evaluating only the prefix, so later requests were never evaluated and
consumed no quota. -/
theorem checkMultipleActions_fail_fast :
    ∀ (st : RLState) (now : Nat) (reqs : List RateLimitRequest),
      (∀ r ∈ reqs, validReq r = true) →
      ∃ k, k ≤ reqs.length ∧
        checkMultipleActions st now reqs =
          (.ok (runSeq now st (reqs.take k)).1,
           (runSeq now st (reqs.take k)).2) ∧
        (runSeq now st (reqs.take k)).1.length = k ∧
        (∀ c ∈ (runSeq now st (reqs.take k)).1.dropLast, c.allowed = true) ∧
        (k < reqs.length →
          ∃ cl, (runSeq now st (reqs.take k)).1.getLast? = some cl ∧
            cl.allowed = false) := by
  intro st now reqs hv
  exact checkMultipleActionsGo_spec now reqs st hv

/-- Witness for C9: with a 1-per-window override, the second identical
request is denied, so the third request of the list is never evaluated. -/
theorem checkMultipleActions_fail_fast_witness :
    ∃ k, k ≤ ([rlReqB, rlReqB, rlReqA].length) ∧
      checkMultipleActions emptyRL 0 [rlReqB, rlReqB, rlReqA] =
        (.ok (runSeq 0 emptyRL ([rlReqB, rlReqB, rlReqA].take k)).1,
         (runSeq 0 emptyRL ([rlReqB, rlReqB, rlReqA].take k)).2) := by
  obtain ⟨k, hk, heq, _, _, _⟩ :=
    checkMultipleActions_fail_fast emptyRL 0 [rlReqB, rlReqB, rlReqA]
      (by decide)
  exact ⟨k, hk, heq⟩

/-! ## Moderation helpers -/

/-- One `flagReview` call: result and stored row, in terms of the found
review. -/
theorem flagReview_step (db : DB) (i flaggedBy : Nat) (r : Review)
    (h : findReview db i = some r) :
    (flagReview db i flaggedBy).1 =
      .ok { r with flaggedCount := r.flaggedCount + 1, status := .FLAGGED } ∧
    findReview (flagReview db i flaggedBy).2 i =
      some { r with flaggedCount := r.flaggedCount + 1,
                    status := if AUTO_HIDE_FLAG_THRESHOLD ≤ r.flaggedCount + 1
                              then .HIDDEN else .FLAGGED } := by
  have hid : r.id = i := find?_key_eq Review.id i db.reviews r h
  simp only [flagReview, h]
  have h1 : (db.reviews.map fun x =>
      if x.id = i then
        { r with flaggedCount := r.flaggedCount + 1,
                 status := ReviewStatus.FLAGGED }
      else x).find? (fun x => decide (x.id = i)) =
      some { r with flaggedCount := r.flaggedCount + 1,
                    status := ReviewStatus.FLAGGED } :=
    find?_map_update Review.id i
      (fun _ => { r with flaggedCount := r.flaggedCount + 1,
                         status := ReviewStatus.FLAGGED })
      db.reviews r hid h
  by_cases hth : AUTO_HIDE_FLAG_THRESHOLD ≤ r.flaggedCount + 1
  · simp only [if_pos hth]
    refine ⟨trivial, ?_⟩
    exact find?_map_update Review.id i
      (fun x => { x with status := ReviewStatus.HIDDEN }) _
      ({ r with flaggedCount := r.flaggedCount + 1,
                status := ReviewStatus.FLAGGED } : Review) hid h1
  · simp only [if_neg hth]
    exact ⟨trivial, h1⟩

theorem updateClientStatistics_eq (db : DB) (c : Nat) :
    updateClientStatistics db c =
      (if (findClient db c).isSome then (.ok (), statsUpdatedDB db c)
       else (.error (.generic "Record to update not found."), db)) := rfl

theorem updateClientAiScore_eq (db : DB) (c : Nat) :
    updateClientAiScore db c =
      (if ((sortByCreatedAtDesc (safetyAssessments db c)).take 5).length > 0
       then
        (if (findClient db c).isSome then (.ok (), scoreUpdatedDB db c)
         else (.error (.generic "Record to update not found."), db))
       else (.ok (), db)) := rfl

theorem statsUpdatedDB_reviews (db : DB) (c : Nat) :
    (statsUpdatedDB db c).reviews = db.reviews := rfl

theorem updateClientStatistics_state (db : DB) (c : Nat) :
    (updateClientStatistics db c).2.reviews = db.reviews ∧
    (updateClientStatistics db c).2.aiAnalyses = db.aiAnalyses := by
  rw [updateClientStatistics_eq]
  by_cases hc : (findClient db c).isSome = true
  · simp [hc, statsUpdatedDB]
  · simp at hc
    simp [hc]

/-! ## Claim C2 -/

/-- C2: `flagReview` increments flaggedCount and sets status FLAGGED; when
the post-increment count reaches AUTO_HIDE_FLAG_THRESHOLD = 3 the stored row
becomes HIDDEN in the same operation; in particular, a review starting at
flaggedCount 0 is still FLAGGED after two flags and HIDDEN after a third. -/
theorem flagReview_increments_and_autohides :
    (∀ (db : DB) (i flaggedBy : Nat) (r : Review),
      findReview db i = some r →
      (flagReview db i flaggedBy).1 =
        .ok { r with flaggedCount := r.flaggedCount + 1,
                     status := .FLAGGED } ∧
      findReview (flagReview db i flaggedBy).2 i =
        some { r with flaggedCount := r.flaggedCount + 1,
                      status :=
                        if AUTO_HIDE_FLAG_THRESHOLD ≤ r.flaggedCount + 1
                        then .HIDDEN else .FLAGGED }) ∧
    (∀ (db : DB) (i f1 f2 f3 : Nat) (r : Review),
      findReview db i = some r → r.flaggedCount = 0 →
      findReview (flagReview (flagReview db i f1).2 i f2).2 i =
        some { r with flaggedCount := 2, status := .FLAGGED } ∧
      findReview
          (flagReview (flagReview (flagReview db i f1).2 i f2).2 i f3).2 i =
        some { r with flaggedCount := 3, status := .HIDDEN }) := by
  constructor
  · intro db i flaggedBy r h
    exact flagReview_step db i flaggedBy r h
  · intro db i f1 f2 f3 r h hc
    have s1 := (flagReview_step db i f1 r h).2
    rw [hc] at s1
    norm_num [AUTO_HIDE_FLAG_THRESHOLD] at s1
    have s2 := (flagReview_step _ i f2 _ s1).2
    norm_num [AUTO_HIDE_FLAG_THRESHOLD] at s2
    have s3 := (flagReview_step _ i f3 _ s2).2
    norm_num [AUTO_HIDE_FLAG_THRESHOLD] at s3
    exact ⟨s2, s3⟩

/-- Witness for C2 on a concrete database: flagging the stored review three
times hides it, two flags only leave it FLAGGED. -/
theorem flagReview_increments_and_autohides_witness :
    (flagReview exDB 1 20).1 =
      .ok { exReviewActive with flaggedCount := 1, status := .FLAGGED } ∧
    findReview (flagReview (flagReview exDB 1 20).2 1 21).2 1 =
      some { exReviewActive with flaggedCount := 2, status := .FLAGGED } ∧
    findReview
        (flagReview (flagReview (flagReview exDB 1 20).2 1 21).2 1 22).2 1 =
      some { exReviewActive with flaggedCount := 3, status := .HIDDEN } := by
  refine ⟨?_, ?_, ?_⟩
  · exact ((flagReview_increments_and_autohides.1 exDB 1 20 exReviewActive
      (by decide)).1).trans (congrArg Except.ok (by decide))
  · exact ((flagReview_increments_and_autohides.2 exDB 1 20 21 22
      exReviewActive (by decide) (by decide)).1)
  · exact ((flagReview_increments_and_autohides.2 exDB 1 20 21 22
      exReviewActive (by decide) (by decide)).2)

theorem findClient_mk_reviews (db : DB) (X : List Review) (c : Nat) :
    findClient { db with reviews := X } c = findClient db c := rfl

theorem findReview_mk_adminActions (db : DB) (X : List AdminAction) (i : Nat) :
    findReview { db with adminActions := X } i = findReview db i := rfl

theorem findReview_statsUpdatedDB (db : DB) (c i : Nat) :
    findReview (statsUpdatedDB db c) i = findReview db i := rfl

theorem findReview_mk_reviews (db : DB) (X : List Review) (i : Nat) :
    findReview { db with reviews := X } i = X.find? fun x => decide (x.id = i) :=
  rfl

/-- Evaluation of `deleteReview` when the review exists. -/
theorem deleteReview_found_eq (db : DB) (i u : Nat) (r : Review)
    (h : findReview db i = some r) :
    deleteReview db i u =
      (match updateClientStatistics
          { db with reviews := db.reviews.map fun (x : Review) =>
              if x.id = i then { x with status := ReviewStatus.DELETED }
              else x }
          r.clientProfileId with
       | (.error e, db2) => (.error e, db2)
       | (.ok _, db2) =>
           (.ok (), { db2 with adminActions := db2.adminActions ++
             [{ adminId := u, actionType := "REVIEW_MODERATE",
                targetType := "REVIEW", targetId := i,
                detailsAction := "delete", detailsFlagCount := none }] })) := by
  rw [deleteReview, h]

/-- After `deleteReview`, the review looked up by the same id is DELETED. -/
theorem deleteReview_keeps_deleted (db : DB) (i u : Nat) (r : Review)
    (h : findReview db i = some r) :
    ∀ r', findReview (deleteReview db i u).2 i = some r' →
      r'.status = ReviewStatus.DELETED := by
  intro r' hfind
  have hid : r.id = i := find?_key_eq Review.id i db.reviews r h
  have hmap : (db.reviews.map fun (x : Review) =>
      if x.id = i then { x with status := ReviewStatus.DELETED } else x).find?
        (fun x => decide (x.id = i)) =
      some { r with status := ReviewStatus.DELETED } :=
    find?_map_update Review.id i
      (fun x => { x with status := ReviewStatus.DELETED }) db.reviews r hid h
  rw [deleteReview_found_eq db i u r h, updateClientStatistics_eq,
      findClient_mk_reviews] at hfind
  by_cases hcl : (findClient db r.clientProfileId).isSome = true
  · rw [if_pos hcl] at hfind
    rw [show (((Except.ok () : Except SvcError Unit),
        statsUpdatedDB { db with reviews := db.reviews.map fun (x : Review) =>
          if x.id = i then { x with status := ReviewStatus.DELETED } else x }
          r.clientProfileId) : Except SvcError Unit × DB) =
        (Except.ok (), statsUpdatedDB _ _) from rfl] at hfind
    rw [findReview_mk_adminActions, findReview_statsUpdatedDB,
        findReview_mk_reviews, hmap] at hfind
    cases Option.some.inj hfind
    rfl
  · rw [if_neg hcl] at hfind
    rw [findReview_mk_reviews, hmap] at hfind
    cases Option.some.inj hfind
    rfl

theorem updateReview_invalid (db : DB) (i : Nat) (req : UpdateReviewRequest)
    (u : Nat) (hval : updateReviewValid req = false) :
    updateReview db i req u = (.error (.generic "validation failed"), db) := by
  simp [updateReview, hval]

theorem updateReview_notFound (db : DB) (i : Nat) (req : UpdateReviewRequest)
    (u : Nat) (hval : updateReviewValid req = true)
    (h : findReview db i = none) :
    updateReview db i req u = (.error (.generic "Review not found"), db) := by
  simp [updateReview, hval, h]

theorem updateReview_unauthorized (db : DB) (i : Nat)
    (req : UpdateReviewRequest) (u : Nat) (r : Review)
    (hval : updateReviewValid req = true) (h : findReview db i = some r)
    (hauth : canUserModifyReview db u r = false) :
    updateReview db i req u =
      (.error (.generic "Not authorized to update this review"), db) := by
  simp [updateReview, hval, h, hauth]

theorem updateReview_authorized_eq (db : DB) (i : Nat)
    (req : UpdateReviewRequest) (u : Nat) (r : Review)
    (hval : updateReviewValid req = true) (h : findReview db i = some r)
    (hauth : canUserModifyReview db u r = true) :
    updateReview db i req u =
      (if req.rating.isSome = true then
        match updateClientStatistics
            { db with reviews := db.reviews.map fun (x : Review) =>
                if x.id = i then applyUpdate req r else x }
            r.clientProfileId with
        | (.ok _, db2) => (.ok (applyUpdate req r), db2)
        | (.error e, db2) => (.error e, db2)
       else
        (.ok (applyUpdate req r),
         { db with reviews := db.reviews.map fun (x : Review) =>
             if x.id = i then applyUpdate req r else x })) := by
  rw [updateReview, hval, h]
  simp only [Bool.not_true, Bool.false_eq_true, if_false, hauth, if_true]

/-- After `updateReview`, a DELETED review stays DELETED: the update schema
carries no status field and every failure path leaves the store unchanged. -/
theorem updateReview_keeps_deleted (db : DB) (i : Nat)
    (req : UpdateReviewRequest) (u : Nat) (r : Review)
    (h : findReview db i = some r) (hst : r.status = ReviewStatus.DELETED) :
    ∀ r', findReview (updateReview db i req u).2 i = some r' →
      r'.status = ReviewStatus.DELETED := by
  intro r' hfind
  have hid : r.id = i := find?_key_eq Review.id i db.reviews r h
  cases hval : updateReviewValid req with
  | false =>
      rw [updateReview_invalid db i req u hval] at hfind
      rw [h] at hfind
      cases Option.some.inj hfind
      exact hst
  | true =>
      cases hauth : canUserModifyReview db u r with
      | false =>
          rw [updateReview_unauthorized db i req u r hval h hauth] at hfind
          rw [h] at hfind
          cases Option.some.inj hfind
          exact hst
      | true =>
          have hmap := find?_map_update Review.id i
            (fun _ => applyUpdate req r) db.reviews r
            (show (applyUpdate req r).id = i from hid) h
          rw [updateReview_authorized_eq db i req u r hval h hauth] at hfind
          by_cases hrt : req.rating.isSome = true
          · rw [if_pos hrt, updateClientStatistics_eq,
                findClient_mk_reviews] at hfind
            by_cases hcl : (findClient db r.clientProfileId).isSome = true
            · rw [if_pos hcl] at hfind
              dsimp only at hfind
              rw [findReview_statsUpdatedDB, findReview_mk_reviews,
                  hmap] at hfind
              cases Option.some.inj hfind
              exact hst
            · rw [if_neg hcl] at hfind
              dsimp only at hfind
              rw [findReview_mk_reviews, hmap] at hfind
              cases Option.some.inj hfind
              exact hst
          · rw [if_neg hrt] at hfind
            dsimp only at hfind
            rw [findReview_mk_reviews, hmap] at hfind
            cases Option.some.inj hfind
            exact hst

/-! ## Claim C3 (corrected) -/

/-- Counterexample to C3 as stated: `flagReview` applied to a DELETED review
moves it to FLAGGED, because the update sets `status: FLAGGED`
unconditionally, without checking the current status. -/
theorem deleted_review_flag_cx :
    findReview (flagReview exDBdel 1 20).2 1 =
      some { id := 1, clientProfileId := 2, reviewerId := 10, rating := 5,
             reviewText := none, flaggedCount := 1,
             status := ReviewStatus.FLAGGED, isVerified := false } ∧
    ReviewStatus.FLAGGED ≠ ReviewStatus.DELETED := by
  exact ⟨by decide, by decide⟩

/-- C3 amended: `deleteReview` and `updateReview` never move a review out of
DELETED, but `flagReview` does: applied to a DELETED review it stores status
FLAGGED (or HIDDEN at the threshold), which is never DELETED. -/
theorem deleted_terminal_except_flag :
    (∀ (db : DB) (i u : Nat) (r : Review),
      findReview db i = some r → r.status = ReviewStatus.DELETED →
      ∀ r', findReview (deleteReview db i u).2 i = some r' →
        r'.status = ReviewStatus.DELETED) ∧
    (∀ (db : DB) (i : Nat) (req : UpdateReviewRequest) (u : Nat) (r : Review),
      findReview db i = some r → r.status = ReviewStatus.DELETED →
      ∀ r', findReview (updateReview db i req u).2 i = some r' →
        r'.status = ReviewStatus.DELETED) ∧
    (∀ (db : DB) (i u : Nat) (r : Review),
      findReview db i = some r → r.status = ReviewStatus.DELETED →
      ∃ r', findReview (flagReview db i u).2 i = some r' ∧
        r'.status ≠ ReviewStatus.DELETED) := by
  refine ⟨?_, ?_, ?_⟩
  · intro db i u r h _
    exact deleteReview_keeps_deleted db i u r h
  · intro db i req u r h hst
    exact updateReview_keeps_deleted db i req u r h hst
  · intro db i u r h _
    refine ⟨_, (flagReview_step db i u r h).2, ?_⟩
    by_cases hth : AUTO_HIDE_FLAG_THRESHOLD ≤ r.flaggedCount + 1
    · simp [hth]
    · simp [hth]

/-- Witness for the amended C3 on a concrete DELETED review: delete and
update keep it DELETED, a flag moves it to FLAGGED. -/
theorem deleted_terminal_except_flag_witness :
    (∀ r', findReview (deleteReview exDBdel 1 20).2 1 = some r' →
      r'.status = ReviewStatus.DELETED) ∧
    (∀ r', findReview (updateReview exDBdel 1 ⟨some 4, none, none⟩ 10).2 1 =
        some r' → r'.status = ReviewStatus.DELETED) ∧
    (∃ r', findReview (flagReview exDBdel 1 20).2 1 = some r' ∧
      r'.status ≠ ReviewStatus.DELETED) := by
  refine ⟨?_, ?_, ?_⟩
  · exact deleted_terminal_except_flag.1 exDBdel 1 20 exReviewDeleted
      (by decide) (by decide)
  · exact deleted_terminal_except_flag.2.1 exDBdel 1 ⟨some 4, none, none⟩ 10
      exReviewDeleted (by decide) (by decide)
  · exact deleted_terminal_except_flag.2.2 exDBdel 1 20 exReviewDeleted
      (by decide) (by decide)

/-! ## Claim C10 -/

/-- C10: `deleteReview` performs no authorization check: for any existing
review and any `deletedBy` whatsoever it succeeds and stores status DELETED,
and its only failures are a missing review or a store error; no Unauthorized
outcome exists. -/
theorem deleteReview_no_auth_check :
    (∀ (db : DB) (i deletedBy : Nat) (r : Review),
      findReview db i = some r →
      (findClient db r.clientProfileId).isSome = true →
      (deleteReview db i deletedBy).1 = .ok () ∧
      ∀ r', findReview (deleteReview db i deletedBy).2 i = some r' →
        r'.status = ReviewStatus.DELETED) ∧
    (∀ (db : DB) (i deletedBy : Nat),
      (deleteReview db i deletedBy).1 = .ok () ∨
      (deleteReview db i deletedBy).1 = .error (.generic "Review not found") ∨
      (deleteReview db i deletedBy).1 =
        .error (.generic "Record to update not found.")) := by
  constructor
  · intro db i deletedBy r h hcl
    refine ⟨?_, deleteReview_keeps_deleted db i deletedBy r h⟩
    rw [deleteReview_found_eq db i deletedBy r h, updateClientStatistics_eq,
        findClient_mk_reviews, if_pos hcl]
  · intro db i deletedBy
    cases hfr : findReview db i with
    | none =>
        right; left
        rw [deleteReview, hfr]
    | some r =>
        rw [deleteReview_found_eq db i deletedBy r hfr,
            updateClientStatistics_eq, findClient_mk_reviews]
        by_cases hcl : (findClient db r.clientProfileId).isSome = true
        · left
          rw [if_pos hcl]
        · right; right
          rw [if_neg hcl]

/-- Witness for C10: a caller who is neither the author (10) nor holds an
elevated role (user 20 has role USER) soft-deletes the review. -/
theorem deleteReview_no_auth_check_witness :
    ((deleteReview exDB 1 20).1 = .ok () ∧
      ∀ r', findReview (deleteReview exDB 1 20).2 1 = some r' →
        r'.status = ReviewStatus.DELETED) ∧
    ((deleteReview exDB 99 20).1 = .ok () ∨
      (deleteReview exDB 99 20).1 = .error (.generic "Review not found") ∨
      (deleteReview exDB 99 20).1 =
        .error (.generic "Record to update not found.")) := by
  constructor
  · exact deleteReview_no_auth_check.1 exDB 1 20 exReviewActive
      (by decide) (by decide)
  · exact deleteReview_no_auth_check.2 exDB 99 20

/-! ## Claim C7 -/

/-- C7: when a non-DELETED review by the same (clientProfileId, reviewerId)
pair exists, `createReview` fails with the DUPLICATE_REVIEW business-rule
error and returns the database untouched: nothing is inserted, the existing
review is unchanged, and no statistics recomputation happens. -/
theorem createReview_duplicate_rejected :
    ∀ (db : DB) (req : CreateReviewRequest) (reviewerId : Nat),
      createReviewValid req = true →
      (findDuplicate db req.clientProfileId reviewerId).isSome = true →
      createReview db req reviewerId =
        (.error (.businessRule "DUPLICATE_REVIEW"
          "You have already reviewed this client"), db) := by
  intro db req reviewerId hval hdup
  cases hd : findDuplicate db req.clientProfileId reviewerId with
  | none => rw [hd] at hdup; simp at hdup
  | some r0 =>
      rw [createReview, hval, hd]
      simp

/-- Witness for C7: reviewer 10 already has an ACTIVE review for client 2,
so a second submission is rejected and the database value is unchanged. -/
theorem createReview_duplicate_rejected_witness :
    createReview exDB ⟨2, 3, none⟩ 10 =
      (.error (.businessRule "DUPLICATE_REVIEW"
        "You have already reviewed this client"), exDB) :=
  createReview_duplicate_rejected exDB ⟨2, 3, none⟩ 10 (by decide) (by decide)

/-! ## Claim C8 (corrected) -/

/-- Counterexample to C8 as stated: for caller 20 (neither author nor
Admin/Manager) the failure for a nonexistent review id (99) and the failure
for an existing review it may not modify (id 1) carry different messages,
so the two outcomes are distinguishable and existence leaks. -/
theorem updateReview_enumeration_cx :
    (updateReview exDB 99 ⟨none, none, none⟩ 20).1 =
      .error (.generic "Review not found") ∧
    (updateReview exDB 1 ⟨none, none, none⟩ 20).1 =
      .error (.generic "Not authorized to update this review") ∧
    (updateReview exDB 99 ⟨none, none, none⟩ 20).1 ≠
      (updateReview exDB 1 ⟨none, none, none⟩ 20).1 := by
  have e1 : updateReview exDB 99 ⟨none, none, none⟩ 20 =
      (.error (.generic "Review not found"), exDB) :=
    updateReview_notFound exDB 99 ⟨none, none, none⟩ 20 (by decide) (by decide)
  have e2 : updateReview exDB 1 ⟨none, none, none⟩ 20 =
      (.error (.generic "Not authorized to update this review"), exDB) :=
    updateReview_unauthorized exDB 1 ⟨none, none, none⟩ 20 exReviewActive
      (by decide) (by decide) (by decide)
  refine ⟨by rw [e1], by rw [e2], ?_⟩
  rw [e1, e2]
  intro hcontra
  exact absurd (SvcError.generic.inj (Except.error.inj hcontra)) (by decide)

/-- C8 amended: the two failures are distinguishable. A nonexistent review
id returns the error message "Review not found", while an existing review
the caller may not modify returns "Not authorized to update this review",
so the error does reveal whether the target exists. -/
theorem updateReview_errors_distinguish :
    (∀ (db : DB) (i : Nat) (req : UpdateReviewRequest) (u : Nat),
      updateReviewValid req = true → findReview db i = none →
      (updateReview db i req u).1 = .error (.generic "Review not found")) ∧
    (∀ (db : DB) (i : Nat) (req : UpdateReviewRequest) (u : Nat) (r : Review),
      updateReviewValid req = true → findReview db i = some r →
      canUserModifyReview db u r = false →
      (updateReview db i req u).1 =
        .error (.generic "Not authorized to update this review")) ∧
    (SvcError.generic "Review not found" ≠
      SvcError.generic "Not authorized to update this review") := by
  refine ⟨?_, ?_, by decide⟩
  · intro db i req u hval h
    rw [updateReview_notFound db i req u hval h]
  · intro db i req u r hval h hauth
    rw [updateReview_unauthorized db i req u r hval h hauth]

/-- Witness for the amended C8 at the concrete database. -/
theorem updateReview_errors_distinguish_witness :
    (updateReview exDB 99 ⟨none, none, none⟩ 20).1 =
      .error (.generic "Review not found") ∧
    (updateReview exDB 1 ⟨none, none, none⟩ 20).1 =
      .error (.generic "Not authorized to update this review") := by
  constructor
  · exact updateReview_errors_distinguish.1 exDB 99 ⟨none, none, none⟩ 20
      (by decide) (by decide)
  · exact updateReview_errors_distinguish.2.1 exDB 1 ⟨none, none, none⟩ 20
      exReviewActive (by decide) (by decide) (by decide)

/-! ## Statistics helpers for C5 -/

theorem findClient_mk (rv : List Review) (cl : List ClientProfile)
    (us : List User) (aa : List AdminAction) (ai : List AiAnalysisRec)
    (nr na c : Nat) :
    findClient ⟨rv, cl, us, aa, ai, nr, na⟩ c =
      cl.find? fun x => decide (x.id = c) := rfl

theorem findClient_def (db : DB) (c : Nat) :
    db.clients.find? (fun x => decide (x.id = c)) = findClient db c := rfl

theorem activeReviews_mk (rv : List Review) (cl : List ClientProfile)
    (us : List User) (aa : List AdminAction) (ai : List AiAnalysisRec)
    (nr na c : Nat) :
    activeReviews ⟨rv, cl, us, aa, ai, nr, na⟩ c =
      rv.filter (fun r => decide (r.clientProfileId = c ∧
        r.status = ReviewStatus.ACTIVE)) := rfl

theorem one_le_sum_of_ratings (l : List Review)
    (h : ∀ x ∈ l, 1 ≤ x.rating) (hne : l ≠ []) :
    (1 : ℚ) ≤ (l.map fun r => (r.rating : ℚ)).sum := by
  cases l with
  | nil => exact absurd rfl hne
  | cons a t =>
      have ha : (1 : ℚ) ≤ (a.rating : ℚ) := by
        exact_mod_cast h a (List.mem_cons_self _ _)
      have ht : (0 : ℚ) ≤ (t.map fun r => (r.rating : ℚ)).sum := by
        apply List.sum_nonneg
        intro x hx
        rcases List.mem_map.1 hx with ⟨y, _, rfl⟩
        positivity
      rw [List.map_cons, List.sum_cons]
      linarith

/-- The row written by `updateClientStatistics` satisfies the aggregate
specification, as long as stored ratings are at least 1. -/
theorem statsUpdatedDB_correct (db : DB) (c : Nat) (cp0 : ClientProfile)
    (hcl : findClient db c = some cp0)
    (hr : ∀ x ∈ activeReviews db c, 1 ≤ x.rating) :
    statsCorrect (statsUpdatedDB db c) c := by
  intro cp hcp
  have hid : cp0.id = c := find?_key_eq ClientProfile.id c db.clients cp0 hcl
  have hmap := find?_map_update ClientProfile.id c
    (fun cl => { cl with
      totalReviews := (activeReviews db c).length
      averageRating :=
        (match (if (activeReviews db c).length = 0 then none
                else some (((activeReviews db c).map
                    fun r => (r.rating : ℚ)).sum /
                  ((activeReviews db c).length : ℚ))) with
         | none => none
         | some a => if a = 0 then none else some a) })
    db.clients cp0 hid hcl
  have hcp' : findClient (statsUpdatedDB db c) c = some cp := hcp
  rw [show findClient (statsUpdatedDB db c) c =
      (db.clients.map fun cl =>
        if cl.id = c then
          { cl with
            totalReviews := (activeReviews db c).length
            averageRating :=
              (match (if (activeReviews db c).length = 0 then none
                      else some (((activeReviews db c).map
                          fun r => (r.rating : ℚ)).sum /
                        ((activeReviews db c).length : ℚ))) with
               | none => none
               | some a => if a = 0 then none else some a) }
        else cl).find? (fun x => decide (x.id = c)) from rfl, hmap] at hcp'
  cases Option.some.inj hcp'
  have hact : activeReviews (statsUpdatedDB db c) c = activeReviews db c := rfl
  rw [hact]
  refine ⟨rfl, ?_⟩
  by_cases hemp : activeReviews db c = []
  · rw [if_pos hemp]
    simp [hemp]
  · rw [if_neg hemp]
    have hlen : (activeReviews db c).length ≠ 0 := by
      simpa [List.length_eq_zero] using hemp
    have hsum : (1 : ℚ) ≤ ((activeReviews db c).map
        fun r => (r.rating : ℚ)).sum :=
      one_le_sum_of_ratings _ hr hemp
    have hlpos : (0 : ℚ) < ((activeReviews db c).length : ℚ) := by
      exact_mod_cast Nat.pos_of_ne_zero hlen
    have havg : (0 : ℚ) < ((activeReviews db c).map
        fun r => (r.rating : ℚ)).sum / ((activeReviews db c).length : ℚ) :=
      div_pos (lt_of_lt_of_le one_pos hsum) hlpos
    simp only [if_neg hlen]
    rw [if_neg (ne_of_gt havg)]
    rw [listMeanQ, List.length_map]

theorem updateClientStatistics_gives (db : DB) (c : Nat) (cp0 : ClientProfile)
    (hcl : findClient db c = some cp0)
    (hr : ∀ x ∈ activeReviews db c, 1 ≤ x.rating) :
    updateClientStatistics db c = (.ok (), statsUpdatedDB db c) ∧
    statsCorrect (statsUpdatedDB db c) c := by
  constructor
  · rw [updateClientStatistics_eq, if_pos (by rw [hcl]; rfl)]
  · exact statsUpdatedDB_correct db c cp0 hcl hr

/-- Evaluation of `createReview` when validation passes and no duplicate
exists. -/
theorem createReview_fresh_eq (db : DB) (req : CreateReviewRequest) (u : Nat)
    (hval : createReviewValid req = true)
    (hdup : findDuplicate db req.clientProfileId u = none) :
    createReview db req u =
      (match updateClientStatistics
          { db with reviews := db.reviews ++ [newReviewRec db req u],
                    nextReviewId := db.nextReviewId + 1 }
          req.clientProfileId with
       | (.ok _, db2) => (.ok (newReviewRec db req u), db2)
       | (.error e, db2) => (.error e, db2)) := by
  rw [createReview, hval, hdup]
  rfl

/-- C5, createReview part: after a successful `createReview` the stored
client aggregate matches the ACTIVE set of the new database. -/
theorem createReview_stats (db : DB) (req : CreateReviewRequest) (u : Nat)
    (hr : ∀ x ∈ db.reviews, 1 ≤ x.rating)
    (hok : exceptOk (createReview db req u).1 = true) :
    statsCorrect (createReview db req u).2 req.clientProfileId := by
  cases hval : createReviewValid req with
  | false =>
      rw [show createReview db req u =
          (.error (.generic "validation failed"), db) from by
        simp [createReview, hval]] at hok
      simp [exceptOk] at hok
  | true =>
      cases hdup : findDuplicate db req.clientProfileId u with
      | some r0 =>
          rw [show createReview db req u =
              (.error (.businessRule "DUPLICATE_REVIEW"
                "You have already reviewed this client"), db) from by
            rw [createReview, hval, hdup]
            rfl] at hok
          simp [exceptOk] at hok
      | none =>
          rw [createReview_fresh_eq db req u hval hdup] at hok ⊢
          rw [updateClientStatistics_eq] at hok ⊢
          by_cases hcl : (findClient
              { db with reviews := db.reviews ++ [newReviewRec db req u],
                        nextReviewId := db.nextReviewId + 1 }
              req.clientProfileId).isSome = true
          · obtain ⟨cp0, hcp0⟩ := Option.isSome_iff_exists.1 hcl
            have hr1 : ∀ x ∈ activeReviews
                { db with reviews := db.reviews ++ [newReviewRec db req u],
                          nextReviewId := db.nextReviewId + 1 }
                req.clientProfileId, 1 ≤ x.rating := by
              intro x hx
              have hx' := List.mem_of_mem_filter hx
              rcases List.mem_append.1 hx' with h1 | h1
              · exact hr x h1
              · have : x = newReviewRec db req u := by simpa using h1
                rw [this]
                have hv := (by simpa [createReviewValid] using hval :
                  (1 ≤ req.clientProfileId ∧ 1 ≤ req.rating) ∧ req.rating ≤ 5)
                exact hv.1.2
            rw [if_pos hcl]
            dsimp only
            exact (updateClientStatistics_gives _ _ cp0 hcp0 hr1).2
          · rw [if_neg hcl] at hok
            dsimp only at hok
            simp [exceptOk] at hok

theorem activeReviews_def (db : DB) (c : Nat) :
    activeReviews db c = db.reviews.filter fun r =>
      decide (r.clientProfileId = c ∧ r.status = ReviewStatus.ACTIVE) := rfl

/-- C5, deleteReview part: after a successful soft delete the stored client
aggregate matches the ACTIVE set of the new database. -/
theorem deleteReview_stats (db : DB) (i u : Nat) (r : Review)
    (hr : ∀ x ∈ db.reviews, 1 ≤ x.rating)
    (h : findReview db i = some r)
    (hok : exceptOk (deleteReview db i u).1 = true) :
    statsCorrect (deleteReview db i u).2 r.clientProfileId := by
  rw [deleteReview_found_eq db i u r h, updateClientStatistics_eq] at hok ⊢
  by_cases hcl : (findClient
      { db with reviews := db.reviews.map fun (x : Review) =>
          if x.id = i then { x with status := ReviewStatus.DELETED } else x }
      r.clientProfileId).isSome = true
  · obtain ⟨cp0, hcp0⟩ := Option.isSome_iff_exists.1 hcl
    have hr1 : ∀ x ∈ activeReviews
        { db with reviews := db.reviews.map fun (x : Review) =>
            if x.id = i then { x with status := ReviewStatus.DELETED }
            else x }
        r.clientProfileId, 1 ≤ x.rating := by
      intro x hx
      have hx' := List.mem_of_mem_filter hx
      rcases List.mem_map.1 hx' with ⟨y, hy, rfl⟩
      by_cases hyid : y.id = i
      · rw [if_pos hyid]
        exact hr y hy
      · rw [if_neg hyid]
        exact hr y hy
    rw [if_pos hcl]
    dsimp only
    exact (updateClientStatistics_gives _ _ cp0 hcp0 hr1).2
  · rw [if_neg hcl] at hok
    dsimp only at hok
    simp [exceptOk] at hok

/-- C5, updateReview part: a successful rating-carrying update recomputes
the aggregate for the review's client. -/
theorem updateReview_stats (db : DB) (i : Nat) (req : UpdateReviewRequest)
    (u : Nat) (r : Review)
    (hr : ∀ x ∈ db.reviews, 1 ≤ x.rating)
    (h : findReview db i = some r) (hrt : req.rating.isSome = true)
    (hok : exceptOk (updateReview db i req u).1 = true) :
    statsCorrect (updateReview db i req u).2 r.clientProfileId := by
  cases hval : updateReviewValid req with
  | false =>
      rw [updateReview_invalid db i req u hval] at hok
      simp [exceptOk] at hok
  | true =>
      cases hauth : canUserModifyReview db u r with
      | false =>
          rw [updateReview_unauthorized db i req u r hval h hauth] at hok
          simp [exceptOk] at hok
      | true =>
          obtain ⟨v, hv⟩ := Option.isSome_iff_exists.1 hrt
          have hvr : 1 ≤ v ∧ v ≤ 5 := by
            simpa [updateReviewValid, hv] using hval
          rw [updateReview_authorized_eq db i req u r hval h hauth,
              if_pos hrt, updateClientStatistics_eq] at hok ⊢
          by_cases hcl : (findClient
              { db with reviews := db.reviews.map fun (x : Review) =>
                  if x.id = i then applyUpdate req r else x }
              r.clientProfileId).isSome = true
          · obtain ⟨cp0, hcp0⟩ := Option.isSome_iff_exists.1 hcl
            have hr1 : ∀ x ∈ activeReviews
                { db with reviews := db.reviews.map fun (x : Review) =>
                    if x.id = i then applyUpdate req r else x }
                r.clientProfileId, 1 ≤ x.rating := by
              intro x hx
              have hx' := List.mem_of_mem_filter hx
              rcases List.mem_map.1 hx' with ⟨y, hy, rfl⟩
              by_cases hyid : y.id = i
              · rw [if_pos hyid]
                show 1 ≤ (applyUpdate req r).rating
                simp [applyUpdate, hv]
                exact hvr.1
              · rw [if_neg hyid]
                exact hr y hy
            rw [if_pos hcl]
            dsimp only
            exact (updateClientStatistics_gives _ _ cp0 hcp0 hr1).2
          · rw [if_neg hcl] at hok
            dsimp only at hok
            simp [exceptOk] at hok

theorem deleteReview_reviews (db : DB) (i u : Nat) (r : Review)
    (h : findReview db i = some r) :
    (deleteReview db i u).2.reviews =
      db.reviews.map fun (x : Review) =>
        if x.id = i then { x with status := ReviewStatus.DELETED } else x := by
  rw [deleteReview_found_eq db i u r h, updateClientStatistics_eq]
  by_cases hcl : (findClient
      { db with reviews := db.reviews.map fun (x : Review) =>
          if x.id = i then { x with status := ReviewStatus.DELETED } else x }
      r.clientProfileId).isSome = true
  · rw [if_pos hcl]
    rfl
  · rw [if_neg hcl]

/-- C5, the scenario part: soft-deleting a client's only ACTIVE review
leaves totalReviews 0 and averageRating none. -/
theorem deleteReview_only_active_zero (db : DB) (i u : Nat) (r : Review)
    (hr : ∀ x ∈ db.reviews, 1 ≤ x.rating)
    (h : findReview db i = some r)
    (hact : activeReviews db r.clientProfileId = [r])
    (hok : exceptOk (deleteReview db i u).1 = true) :
    ∀ cp, findClient (deleteReview db i u).2 r.clientProfileId = some cp →
      cp.totalReviews = 0 ∧ cp.averageRating = none := by
  intro cp hcp
  have hid : r.id = i := find?_key_eq Review.id i db.reviews r h
  have hempty : activeReviews (deleteReview db i u).2 r.clientProfileId = [] := by
    rw [activeReviews_def, deleteReview_reviews db i u r h]
    rw [List.filter_eq_nil_iff]
    intro y hy
    rcases List.mem_map.1 hy with ⟨x, hx, rfl⟩
    by_cases hxid : x.id = i
    · rw [if_pos hxid]
      simp
    · rw [if_neg hxid]
      intro hpred
      have hxact : x ∈ activeReviews db r.clientProfileId :=
        List.mem_filter.2 ⟨hx, hpred⟩
      rw [hact] at hxact
      have : x = r := by simpa using hxact
      rw [this] at hxid
      exact hxid hid
  have h2 := deleteReview_stats db i u r hr h hok cp hcp
  rw [hempty] at h2
  simpa using h2

/-! ## Claim C5 -/

/-- C5: after every successful createReview, deleteReview, or
rating-carrying updateReview, the stored client aggregate satisfies
totalReviews = |ACTIVE set| and averageRating = mean of that set, or none
(not 0) when it is empty; in particular deleting the only ACTIVE review
leaves totalReviews 0 and averageRating none. -/
theorem client_stats_after_mutations :
    (∀ (db : DB) (req : CreateReviewRequest) (u : Nat),
      (∀ x ∈ db.reviews, 1 ≤ x.rating) →
      exceptOk (createReview db req u).1 = true →
      statsCorrect (createReview db req u).2 req.clientProfileId) ∧
    (∀ (db : DB) (i u : Nat) (r : Review),
      (∀ x ∈ db.reviews, 1 ≤ x.rating) →
      findReview db i = some r →
      exceptOk (deleteReview db i u).1 = true →
      statsCorrect (deleteReview db i u).2 r.clientProfileId) ∧
    (∀ (db : DB) (i : Nat) (req : UpdateReviewRequest) (u : Nat) (r : Review),
      (∀ x ∈ db.reviews, 1 ≤ x.rating) →
      findReview db i = some r → req.rating.isSome = true →
      exceptOk (updateReview db i req u).1 = true →
      statsCorrect (updateReview db i req u).2 r.clientProfileId) ∧
    (∀ (db : DB) (i u : Nat) (r : Review),
      (∀ x ∈ db.reviews, 1 ≤ x.rating) →
      findReview db i = some r →
      activeReviews db r.clientProfileId = [r] →
      exceptOk (deleteReview db i u).1 = true →
      ∀ cp, findClient (deleteReview db i u).2 r.clientProfileId = some cp →
        cp.totalReviews = 0 ∧ cp.averageRating = none) := by
  refine ⟨?_, ?_, ?_, ?_⟩
  · intro db req u hr hok
    exact createReview_stats db req u hr hok
  · intro db i u r hr h hok
    exact deleteReview_stats db i u r hr h hok
  · intro db i req u r hr h hrt hok
    exact updateReview_stats db i req u r hr h hrt hok
  · intro db i u r hr h hact hok
    exact deleteReview_only_active_zero db i u r hr h hact hok

/-- Witness for C5 on the concrete database: a successful create for a new
reviewer, and a soft delete of the only ACTIVE review. -/
theorem client_stats_after_mutations_witness :
    statsCorrect (createReview exDB ⟨2, 4, none⟩ 30).2 2 ∧
    statsCorrect (deleteReview exDB 1 20).2 2 ∧
    statsCorrect (updateReview exDB 1 ⟨some 4, none, none⟩ 10).2 2 ∧
    (∀ cp, findClient (deleteReview exDB 1 20).2 2 = some cp →
      cp.totalReviews = 0 ∧ cp.averageRating = none) := by
  refine ⟨?_, ?_, ?_, ?_⟩
  · exact client_stats_after_mutations.1 exDB ⟨2, 4, none⟩ 30
      (by decide) (by decide)
  · exact client_stats_after_mutations.2.1 exDB 1 20 exReviewActive
      (by decide) (by decide) (by decide)
  · exact client_stats_after_mutations.2.2.1 exDB 1 ⟨some 4, none, none⟩ 10
      exReviewActive (by decide) (by decide) (by decide) (by decide)
  · exact client_stats_after_mutations.2.2.2 exDB 1 20 exReviewActive
      (by decide) (by decide) (by decide) (by decide)

/-! ## AI score helpers for C6 -/

theorem length_insertByCreatedAtDesc (a : AiAnalysisRec)
    (l : List AiAnalysisRec) :
    (insertByCreatedAtDesc a l).length = l.length + 1 := by
  induction l with
  | nil => rfl
  | cons b t ih =>
      rw [insertByCreatedAtDesc]
      by_cases hb : b.createdAt < a.createdAt
      · rw [if_pos hb]
        rfl
      · rw [if_neg hb, List.length_cons, ih, List.length_cons]

theorem length_sortByCreatedAtDesc (l : List AiAnalysisRec) :
    (sortByCreatedAtDesc l).length = l.length := by
  induction l with
  | nil => rfl
  | cons a t ih =>
      rw [sortByCreatedAtDesc, List.foldr_cons]
      rw [show List.foldr insertByCreatedAtDesc [] t = sortByCreatedAtDesc t
        from rfl]
      rw [length_insertByCreatedAtDesc, ih, List.length_cons]

theorem safetyAssessments_scoreUpdatedDB (db : DB) (c c' : Nat) :
    safetyAssessments (scoreUpdatedDB db c) c' = safetyAssessments db c' := rfl

theorem updateClientAiScore_gives (db : DB) (c : Nat) (cp0 : ClientProfile)
    (hne : safetyAssessments db c ≠ [])
    (hcl : findClient db c = some cp0) :
    updateClientAiScore db c = (.ok (), scoreUpdatedDB db c) ∧
    findClient (scoreUpdatedDB db c) c =
      some { cp0 with
        aiSafetyScore := some (listMeanQ (fiveMostRecentSafetyScores db c)) } := by
  have hid : cp0.id = c := find?_key_eq ClientProfile.id c db.clients cp0 hcl
  have hlen : ((sortByCreatedAtDesc (safetyAssessments db c)).take 5).length > 0 := by
    rw [List.length_take, length_sortByCreatedAtDesc]
    have : 0 < (safetyAssessments db c).length := List.length_pos.2 hne
    omega
  constructor
  · rw [updateClientAiScore_eq, if_pos hlen, if_pos (by rw [hcl]; rfl)]
  · exact find?_map_update ClientProfile.id c
      (fun cl => { cl with
        aiSafetyScore := some (listMeanQ (fiveMostRecentSafetyScores db c)) })
      db.clients cp0 hid hcl

theorem createAnalysis_conf_invalid (db : DB) (now : Nat)
    (req : CreateAnalysisRequest) (cs : ℚ)
    (hcs : req.confidenceScore = some cs)
    (hv : isValidConfidenceScore cs = false) :
    createAnalysis db now req =
      (.error (.validation "confidenceScore" "out of range"), db) := by
  rw [createAnalysis, hcs]
  dsimp only
  rw [hv]
  rfl

theorem createAnalysis_eq_checked (db : DB) (now : Nat)
    (req : CreateAnalysisRequest)
    (h : ∀ cs, req.confidenceScore = some cs →
      isValidConfidenceScore cs = true) :
    createAnalysis db now req = createAnalysisChecked db now req := by
  rw [createAnalysis]
  cases hcs : req.confidenceScore with
  | none => rfl
  | some cs =>
      dsimp only
      rw [h cs hcs]
      rfl

theorem createAnalysisChecked_safety_eq (db : DB) (now : Nat)
    (req : CreateAnalysisRequest) (c : Nat)
    (hsaf : req.analysisType = "SAFETY_ASSESSMENT")
    (hcid : req.clientProfileId = some c) (hc0 : c ≠ 0)
    (hvd : validateResultData req = true) :
    createAnalysisChecked db now req =
      (match updateClientAiScore
          { db with aiAnalyses := db.aiAnalyses ++ [newAnalysisRec db now req],
                    nextAnalysisId := db.nextAnalysisId + 1 } c with
       | (.ok _, db2) => (.ok (newAnalysisRec db now req), db2)
       | (.error e, db2) => (.error e, db2)) := by
  have htru : truthy req.clientProfileId = true := by
    rw [hcid]
    simp [truthy, hc0]
  rw [createAnalysisChecked, htru, hvd]
  simp only [Bool.true_or, Bool.not_true, Bool.false_eq_true, if_false]
  rw [show (decide (req.analysisType = "SAFETY_ASSESSMENT") && true) = true
    from by rw [hsaf]; simp]
  rw [if_pos (rfl : true = true)]
  rw [hcid]
  rfl

theorem createAnalysisChecked_invalid_result (db : DB) (now : Nat)
    (req : CreateAnalysisRequest)
    (htarget : (truthy req.clientProfileId || truthy req.photoId) = true)
    (hvd : validateResultData req = false) :
    createAnalysisChecked db now req =
      (.error (.validation "resultData" "invalid"), db) := by
  rw [createAnalysisChecked, htarget, hvd]
  rfl

theorem createAnalysisChecked_clients (db : DB) (now : Nat)
    (req : CreateAnalysisRequest)
    (hns : req.analysisType ≠ "SAFETY_ASSESSMENT") :
    (createAnalysisChecked db now req).2.clients = db.clients := by
  rw [createAnalysisChecked]
  cases ht : (truthy req.clientProfileId || truthy req.photoId) with
  | false => rfl
  | true =>
      simp only [Bool.not_true, Bool.false_eq_true, if_false]
      cases hvd : validateResultData req with
      | false => rfl
      | true =>
          simp only [Bool.not_true, Bool.false_eq_true, if_false]
          rw [show (decide (req.analysisType = "SAFETY_ASSESSMENT") &&
              truthy req.clientProfileId) = false from by simp [hns]]
          rfl

/-! ## Claim C6 -/

/-- C6: ingesting a SAFETY_ASSESSMENT for a client sets the client's
aiSafetyScore to the unweighted mean of overallScore over the 5 most recent
safety assessments (ordered by createdAt descending) of the post-insert
table; ingesting any other analysis type never touches the client rows; and
with no safety assessments `updateClientAiScore` writes nothing. -/
theorem createAnalysis_safety_score :
    (∀ (db : DB) (now : Nat) (req : CreateAnalysisRequest) (c : Nat),
      req.analysisType = "SAFETY_ASSESSMENT" →
      req.clientProfileId = some c → c ≠ 0 →
      exceptOk (createAnalysis db now req).1 = true →
      ∃ cp, findClient (createAnalysis db now req).2 c = some cp ∧
        cp.aiSafetyScore = some (listMeanQ
          (fiveMostRecentSafetyScores (createAnalysis db now req).2 c))) ∧
    (∀ (db : DB) (now : Nat) (req : CreateAnalysisRequest),
      req.analysisType ≠ "SAFETY_ASSESSMENT" →
      (createAnalysis db now req).2.clients = db.clients) ∧
    (∀ (db : DB) (c : Nat), safetyAssessments db c = [] →
      updateClientAiScore db c = (.ok (), db)) := by
  refine ⟨?_, ?_, ?_⟩
  · intro db now req c hsaf hcid hc0 hok
    have hconf : ∀ cs, req.confidenceScore = some cs →
        isValidConfidenceScore cs = true := by
      intro cs hcs
      cases hvc : isValidConfidenceScore cs with
      | true => rfl
      | false =>
          rw [createAnalysis_conf_invalid db now req cs hcs hvc] at hok
          simp [exceptOk] at hok
    rw [createAnalysis_eq_checked db now req hconf] at hok ⊢
    have htru : truthy req.clientProfileId = true := by
      rw [hcid]
      simp [truthy, hc0]
    cases hvd : validateResultData req with
    | false =>
        rw [createAnalysisChecked_invalid_result db now req
          (by rw [htru]; rfl) hvd] at hok
        simp [exceptOk] at hok
    | true =>
        rw [createAnalysisChecked_safety_eq db now req c hsaf hcid hc0
          hvd] at hok ⊢
        have hne : safetyAssessments
            { db with aiAnalyses := db.aiAnalyses ++ [newAnalysisRec db now req],
                      nextAnalysisId := db.nextAnalysisId + 1 } c ≠ [] := by
          apply List.ne_nil_of_mem (a := newAnalysisRec db now req)
          apply List.mem_filter.2
          constructor
          · simp
          · simp [newAnalysisRec, hcid, hsaf]
        by_cases hcl : (findClient
            { db with aiAnalyses := db.aiAnalyses ++ [newAnalysisRec db now req],
                      nextAnalysisId := db.nextAnalysisId + 1 }
            c).isSome = true
        · obtain ⟨cp0, hcp0⟩ := Option.isSome_iff_exists.1 hcl
          obtain ⟨heq, hfind⟩ := updateClientAiScore_gives _ c cp0 hne hcp0
          rw [heq]
          dsimp only
          exact ⟨_, hfind, rfl⟩
        · have hlen : ((sortByCreatedAtDesc (safetyAssessments
              { db with aiAnalyses := db.aiAnalyses ++ [newAnalysisRec db now req],
                        nextAnalysisId := db.nextAnalysisId + 1 }
              c)).take 5).length > 0 := by
            rw [List.length_take, length_sortByCreatedAtDesc]
            have := List.length_pos.2 hne
            omega
          rw [show updateClientAiScore
              { db with aiAnalyses := db.aiAnalyses ++ [newAnalysisRec db now req],
                        nextAnalysisId := db.nextAnalysisId + 1 } c =
            (.error (.generic "Record to update not found."),
             { db with aiAnalyses := db.aiAnalyses ++ [newAnalysisRec db now req],
                       nextAnalysisId := db.nextAnalysisId + 1 }) from by
            rw [updateClientAiScore_eq, if_pos hlen, if_neg hcl]] at hok
          simp [exceptOk] at hok
  · intro db now req hns
    cases hcs : req.confidenceScore with
    | none =>
        rw [createAnalysis_eq_checked db now req
          (by intro cs' hcs'; rw [hcs] at hcs'; cases hcs')]
        exact createAnalysisChecked_clients db now req hns
    | some cs =>
        cases hvc : isValidConfidenceScore cs with
        | true =>
            rw [createAnalysis_eq_checked db now req
              (by intro cs' hcs'; rw [hcs] at hcs';
                  cases Option.some.inj hcs'; exact hvc)]
            exact createAnalysisChecked_clients db now req hns
        | false =>
            rw [createAnalysis_conf_invalid db now req cs hcs hvc]
  · intro db c h
    rw [updateClientAiScore_eq]
    rw [show ((sortByCreatedAtDesc (safetyAssessments db c)).take 5).length = 0
      from by rw [h]; rfl]
    rw [if_neg (lt_irrefl 0)]

/-- Witness for C6 at a concrete database: one safety assessment of score 8
for client 2 sets aiSafetyScore, scores of other kinds leave clients alone,
and with no assessments nothing is written. -/
theorem createAnalysis_safety_score_witness :
    (∃ cp, findClient
        (createAnalysis exDB 100 ⟨some 2, none, "SAFETY_ASSESSMENT", 8,
          true, none⟩).2 2 = some cp ∧
      cp.aiSafetyScore = some (listMeanQ (fiveMostRecentSafetyScores
        (createAnalysis exDB 100 ⟨some 2, none, "SAFETY_ASSESSMENT", 8,
          true, none⟩).2 2))) ∧
    (createAnalysis exDB 100
      ⟨some 2, none, "TEXT_SENTIMENT", 8, true, none⟩).2.clients =
      exDB.clients ∧
    updateClientAiScore exDB 2 = (.ok (), exDB) := by
  refine ⟨?_, ?_, ?_⟩
  · exact createAnalysis_safety_score.1 exDB 100
      ⟨some 2, none, "SAFETY_ASSESSMENT", 8, true, none⟩ 2 rfl rfl
      (by decide) (by decide)
  · exact createAnalysis_safety_score.2.1 exDB 100
      ⟨some 2, none, "TEXT_SENTIMENT", 8, true, none⟩ (by decide)
  · exact createAnalysis_safety_score.2.2 exDB 2 (by decide)
